import Mathlib

/-!
Verification development for the sitemap-crawl and batched-submission core of
the 1hping indexing bot (src/main.py).  The Python functions are shallowly
embedded as executable Lean definitions; network effects (HTTP fetches, the
external API) are abstracted as explicit function parameters so every
definition stays pure and computable.
-/

set_option maxRecDepth 10000

namespace OneHping

/-! ## Python string primitives

Character-level models of the Python string operations used by main.py.
Strings are handled through their underlying character lists.  Python
str.strip removes ASCII whitespace from both ends; str.lower is modelled on
the ASCII range (the hostnames and URLs handled by the bot are ASCII). -/

/-- Whitespace set of Python str.strip (ASCII part). -/
def wsChar (c : Char) : Bool :=
  c = ' ' || c = '\t' || c = '\n' || c = '\r' || c = '\x0b' || c = '\x0c'

/-- Trailing-whitespace trimmer used to model the right half of str.strip. -/
def trimEnd : List Char → List Char
  | [] => []
  | c :: rest =>
    match trimEnd rest with
    | [] => if wsChar c then [] else [c]
    | r => c :: r

/-- Model of Python str.strip on a character list: drop whitespace at both ends. -/
def pyStripChars (l : List Char) : List Char :=
  trimEnd (l.dropWhile wsChar)

/-- Model of Python str.strip on a String. -/
def pyStrip (s : String) : String :=
  String.mk (pyStripChars s.data)

/-- ASCII lower-casing of one character, as done by str.lower on the inputs
this program handles. -/
def lcChar (c : Char) : Char :=
  if 65 ≤ c.toNat ∧ c.toNat ≤ 90 then Char.ofNat (c.toNat + 32) else c

/-- Model of Python str.lower on a character list. -/
def lcList (l : List Char) : List Char :=
  l.map lcChar

/-- Model of Python str.lower on a String. -/
def pyLower (s : String) : String :=
  String.mk (lcList s.data)

/-- Python substring containment (the in operator on str). -/
def strContains (s pat : String) : Bool :=
  (List.range (s.data.length + 1)).any (fun i => pat.data.isPrefixOf (s.data.drop i))

/-- Python str.endswith. -/
def strEndsWith (s pat : String) : Bool :=
  pat.data.isSuffixOf s.data

/-- Order-preserving first-occurrence deduplication, the model of Python
list(dict.fromkeys(xs)) used throughout main.py. -/
def dedupeAux (seen : List String) : List String → List String
  | [] => []
  | x :: rest => if x ∈ seen then dedupeAux seen rest else x :: dedupeAux (x :: seen) rest

/-- Deduplicate keeping the first occurrence of each element. -/
def dedupe (l : List String) : List String :=
  dedupeAux [] l

/-! ## Host normalization (src/main.py, _norm_domain)

Python: strip the raw input; if it does not match the regex ^https?:// (case
insensitive) prepend http://; run urllib.parse.urlparse and take netloc;
strip, lowercase, and cut at the first colon.  urlsplit first removes the
characters tab, newline and carriage return from the whole URL; for a URL
that starts with http:// or https:// the netloc is the text between the
double slash and the first slash, question mark or hash. -/

/-- Characters removed from the whole URL by urllib's urlsplit. -/
def ctlChar (c : Char) : Bool :=
  c = '\t' || c = '\n' || c = '\r'

/-- Characters that terminate the netloc component in urlsplit. -/
def urlDelim (c : Char) : Bool :=
  c = '/' || c = '?' || c = '#'

/-- Test for the regex match re.match(r"^https?://", raw, re.I). -/
def hasHttpScheme (l : List Char) : Bool :=
  "http://".data.isPrefixOf (lcList l) || "https://".data.isPrefixOf (lcList l)

/-- Netloc extraction of urllib.parse.urlparse, specialised to the inputs
_norm_domain feeds it: every input begins (case-insensitively) with http://
or https:// because _norm_domain prepends a scheme otherwise.  urlsplit
deletes tab, newline and carriage return anywhere in the URL, drops the
scheme and the double slash, and ends the netloc at the first slash,
question mark or hash. -/
def netlocOf (url : List Char) : List Char :=
  let u := url.filter (fun c => !ctlChar c)
  let rest :=
    if "https://".data.isPrefixOf (lcList u) then u.drop 8
    else if "http://".data.isPrefixOf (lcList u) then u.drop 7
    else []
  rest.takeWhile (fun c => !urlDelim c)

/-- The bracketed host urlsplit validates: the text after the first opening
bracket of the netloc and before the first closing bracket that follows it,
as computed by netloc.partition on the two brackets. -/
def bracketedHostOf (netloc : List Char) : List Char :=
  ((netloc.dropWhile (fun c => c ≠ '[')).drop 1).takeWhile (fun c => c ≠ ']')

/-- Bracket validation urlsplit performs on the netloc before returning: a
netloc containing one bracket but not the other raises
ValueError("Invalid IPv6 URL"); a netloc containing both bracket characters
has the bracketed host checked by _check_bracketed_host, which raises
ValueError unless it is a valid IPv6 address or IPvFuture literal.  That
validity test (delegated by CPython to the ipaddress module) is abstracted
here as the function parameter bracketCheck, returning the raised message
or none for a valid host; a bracket-free netloc is not checked at all.
The separate NFKC netloc check raises only for non-ASCII netlocs and is
outside this ASCII-range model. -/
def bracketError (bracketCheck : List Char → Option (List Char)) (netloc : List Char) :
    Option (List Char) :=
  if ('[' ∈ netloc ∧ ']' ∉ netloc) ∨ (']' ∈ netloc ∧ '[' ∉ netloc) then
    some "Invalid IPv6 URL".data
  else if '[' ∈ netloc ∧ ']' ∈ netloc then bracketCheck (bracketedHostOf netloc)
  else none

/-- Model of _norm_domain on character lists: strip, prepend a scheme when
missing, run urlparse — which raises ValueError on a netloc that fails the
bracket checks — then take the netloc, strip it, lowercase, and cut the
port at the first colon.  An Except.error is the ValueError message raised
out of _norm_domain, which has no try/except of its own. -/
def normDomainChars (bracketCheck : List Char → Option (List Char)) (raw : List Char) :
    Except (List Char) (List Char) :=
  let raw := pyStripChars raw
  if raw = [] then .ok []
  else
    let url := if hasHttpScheme raw then raw else "http://".data ++ raw
    let netloc := netlocOf url
    match bracketError bracketCheck netloc with
    | some m => .error m
    | none =>
      let host := lcList (pyStripChars netloc)
      .ok (host.takeWhile (fun c => c ≠ ':'))

/-- Model of _norm_domain (src/main.py lines 145-155): the normalized host,
or the ValueError message urlparse raises. -/
def normDomain (bracketCheck : List Char → Option (List Char)) (s : String) :
    Except String String :=
  match normDomainChars bracketCheck s.data with
  | .error m => .error (String.mk m)
  | .ok h => .ok (String.mk h)

/-! ## Batching (src/main.py, _chunk and call_1hping_in_batches)

Python _chunk slices lst[i:i+size] for i in range(0, len(lst), size).  For a
positive size this peels off the first size elements repeatedly; range
raises ValueError when the step is zero, and yields nothing when the step is
negative (start 0, stop len(lst) >= 0).  The outcome of one API request is
abstracted as a function parameter; a raised transport exception is an
Except.error, which in Python propagates out of the batch loop. -/

/-- Result dict of call_1hping_create_campaign: HTTP status plus response
body (the parsed JSON, or the raw text on JSON-parse failure, rendered here
as one string payload). -/
structure ApiResult where
  status : Nat
  data : String
  deriving DecidableEq, Repr

/-- Positive-step chunking: repeatedly take the first size elements.  The
fuel argument starts at the list length and strictly bounds the number of
slices (each slice consumes at least one element when size is at least 1). -/
def chunkPos (fuel : Nat) (lst : List String) (size : Nat) : List (List String) :=
  match fuel with
  | 0 => []
  | f + 1 => if lst = [] then [] else lst.take size :: chunkPos f (lst.drop size) size

/-- Model of _chunk (src/main.py lines 60-62), with the step semantics of
Python range: step 0 raises ValueError, a negative step yields no slices. -/
def pyChunk (lst : List String) (size : Int) : Except String (List (List String)) :=
  if size = 0 then .error "range() arg 3 must not be zero"
  else if size < 0 then .ok []
  else .ok (chunkPos lst.length lst size.toNat)

/-- Name given to the batch at 1-based index idx: the base name when there is
a single part, otherwise base__partN (src/main.py line 137). -/
def batchName (campaignName : String) (totalParts idx : Nat) : String :=
  if totalParts = 1 then campaignName
  else campaignName ++ "__part" ++ toString idx

/-- Loop body of call_1hping_in_batches: submit each part in order, pairing
the chosen name with the API outcome; a raised exception (Except.error)
aborts the loop as in Python.  The first component records the names of the
requests actually issued before the stop, whatever the final outcome. -/
def callBatchesLoop (api : String → List String → Except String ApiResult)
    (campaignName : String) (totalParts : Nat) :
    List (List String) → Nat → List String × Except String (List (String × ApiResult))
  | [], _ => ([], .ok [])
  | part :: rest, idx =>
    let name := batchName campaignName totalParts idx
    match api name part with
    | .error e => ([name], .error e)
    | .ok r =>
      let (attempted, tailRes) := callBatchesLoop api campaignName totalParts rest (idx + 1)
      (name :: attempted,
       match tailRes with
       | .error e => .error e
       | .ok results => .ok ((name, r) :: results))

/-- Model of call_1hping_in_batches (src/main.py lines 124-140).  Returns
the list of campaign names actually submitted, together with the Python
return value (or the exception that escaped the loop).  The NumberOfDay
field of each request payload is a constant forwarded verbatim, so it is
folded into the abstracted api function. -/
def callInBatches (api : String → List String → Except String ApiResult)
    (campaignName : String) (urls : List String) (batchSize : Int) :
    List String × Except String (List (String × ApiResult)) :=
  if urls = [] then ([], .ok [])
  else
    match pyChunk urls batchSize with
    | .error e => ([], .error e)
    | .ok parts => callBatchesLoop api campaignName parts.length parts 1

/-! ## Fetching (src/main.py, _fetch_bytes)

The HTTP layer is abstracted: the response observed for the URL (or none,
standing for a timeout, connection error or any other raised exception) is a
parameter, as is gzip.decompress (none standing for a raised decompression
error).  Bytes are modelled as lists of naturals. -/

/-- Observable part of an aiohttp response: status code, body bytes and the
Content-Type header (empty string when absent). -/
structure HttpResponse where
  status : Nat
  body : List Nat
  contentType : String
  deriving DecidableEq, Repr

/-- Model of _fetch_bytes (src/main.py lines 172-187): none unless the
status is exactly 200; on 200, gunzip the body when the URL ends in .gz or
the Content-Type mentions gzip, falling back to the raw bytes when
decompression raises. -/
def fetchBytes (gunzip : List Nat → Option (List Nat)) (url : String)
    (resp : Option HttpResponse) : Option (List Nat) :=
  match resp with
  | none => none
  | some r =>
    if r.status ≠ 200 then none
    else
      let content := r.body
      if strEndsWith (pyLower url) ".gz" || strContains r.contentType "gzip"
          || strContains r.contentType "application/gzip" then
        match gunzip content with
        | some d => some d
        | none => some content
      else some content

/-! ## XML parsing (src/main.py, _parse_sitemap_xml)

An ElementTree element is a tag (split here into namespace and local name),
optional text, and a child list.  root.findall with the path .//{*}name
returns, in document order, every strict descendant whose local name
matches, for any namespace; elem.find with {*}loc returns the first direct
child with local name loc.  ET.fromstring raising on malformed bytes is
modelled by an Option input. -/

mutual
/-- An XML element as seen through ElementTree: a tag split into namespace
and local name, optional text, and a sibling list of children (a mutually
inductive type so that document traversal is structurally recursive). -/
inductive XmlElem where
  | node (ns : String) (localName : String) (text : Option String) (children : XmlList)
/-- A list of XML elements, mutually inductive with XmlElem. -/
inductive XmlList where
  | nil
  | cons (head : XmlElem) (tail : XmlList)
end

/-- Local name of an element. -/
def XmlElem.localName : XmlElem → String
  | .node _ l _ _ => l

/-- Text of an element (none when the element has no text). -/
def XmlElem.text : XmlElem → Option String
  | .node _ _ t _ => t

/-- Children of an element. -/
def XmlElem.children : XmlElem → XmlList
  | .node _ _ _ cs => cs

/-- View of a sibling list as a plain list. -/
def XmlList.toList : XmlList → List XmlElem
  | .nil => []
  | .cons c rest => c :: rest.toList

/-- All strict descendants of the elements of a sibling list, in document
order; this is the order ElementTree findall traverses. -/
def descendantsList : XmlList → List XmlElem
  | .nil => []
  | .cons (.node ns l t cs) rest => .node ns l t cs :: (descendantsList cs ++ descendantsList rest)

/-- Model of _xml_findall (src/main.py lines 189-190): the strict
descendants of the root whose local name matches, ignoring the namespace. -/
def xmlFindall (root : XmlElem) (localName : String) : List XmlElem :=
  (descendantsList root.children).filter (fun e => e.localName = localName)

/-- The text yielded by one sitemap or url element: its first direct child
with local name loc, text defaulted to the empty string and stripped,
kept only when nonempty (src/main.py lines 205-213). -/
def locText (e : XmlElem) : Option String :=
  match e.children.toList.find? (fun c => c.localName = "loc") with
  | none => none
  | some locEl =>
    let loc := pyStrip (locEl.text.getD "")
    if loc = "" then none else some loc

/-- Model of _parse_sitemap_xml (src/main.py lines 192-215).  The input is
the parsed tree, or none when ET.fromstring raised; both extractions always
run on a successful parse. -/
def parseSitemapXml (doc : Option XmlElem) : List String × List String :=
  match doc with
  | none => ([], [])
  | some root =>
    ((xmlFindall root "sitemap").filterMap locText,
     (xmlFindall root "url").filterMap locText)

/-! ## Entry-point discovery (src/main.py, _candidate_sitemap_urls and
_discover_sitemap_entry_points)

A crawl environment combines _fetch_bytes and _parse_sitemap_xml for one
sitemap URL: none stands for a fetch that returned no data (non-200,
transport failure, timeout, empty body); some (children, pages) is the
parse result of the fetched bytes.  This is the only information the
discovery and crawl loops ever consume. -/

/-- Fetch-plus-parse outcome per sitemap URL. -/
def CrawlEnv : Type := String → Option (List String × List String)

/-- Model of _candidate_sitemap_urls (src/main.py lines 157-170): for the
bare host, then its www. variant when the host does not already start with
www., probe https then http, sitemap_index.xml then sitemap.xml. -/
def candidateSitemapUrls (host : String) : List String :=
  let hosts := if "www.".data.isPrefixOf host.data then [host] else [host, "www." ++ host]
  hosts.flatMap (fun h =>
    ["https://" ++ h ++ "/sitemap_index.xml",
     "https://" ++ h ++ "/sitemap.xml",
     "http://" ++ h ++ "/sitemap_index.xml",
     "http://" ++ h ++ "/sitemap.xml"])

/-- Probe loop of _discover_sitemap_entry_points: skip candidates with no
data, stop at the first candidate with a nonempty child list (itself plus
its children) or, failing that, a nonempty page list (itself alone). -/
def probeEntryPoints (env : CrawlEnv) : List String → List String
  | [] => []
  | url :: rest =>
    match env url with
    | none => probeEntryPoints env rest
    | some (childSitemaps, pageUrls) =>
      if childSitemaps ≠ [] then url :: childSitemaps
      else if pageUrls ≠ [] then [url]
      else probeEntryPoints env rest

/-- Model of _discover_sitemap_entry_points (src/main.py lines 257-276):
probe the candidates in order and deduplicate the winning entry points
preserving order. -/
def discoverSitemapEntryPoints (env : CrawlEnv) (host : String) : List String :=
  dedupe (probeEntryPoints env (candidateSitemapUrls host))

/-! ## Recursive crawl (src/main.py, _collect_urls_from_sitemaps)

Level-by-level traversal; the visited sitemap set is checked and extended at
dequeue time, page URLs are appended on first sight, children not yet
visited feed the next level, and the loop stops when the queue empties or
the depth counter reaches the limit.  The state additionally records the
sequence of sitemap URLs actually fetched, in fetch order, so that the
number of fetches is an observable of the model. -/

/-- Crawl state: visited sitemap URLs, seen page URLs, the ordered collected
page list, and the fetch trace. -/
structure CrawlState where
  seenSitemaps : List String
  seenUrls : List String
  orderedUrls : List String
  fetchTrace : List String
  deriving DecidableEq, Repr

/-- The empty crawl state. -/
def CrawlState.init : CrawlState :=
  ⟨[], [], [], []⟩

/-- Record one page URL when it has not been seen yet (src/main.py lines
243-246, loop body). -/
def addPage (st : CrawlState) (u : String) : CrawlState :=
  if u ∈ st.seenUrls then st
  else { st with seenUrls := u :: st.seenUrls, orderedUrls := st.orderedUrls ++ [u] }

/-- Append the page URLs of one document, keeping only first occurrences
(src/main.py lines 243-246). -/
def addPageUrls (st : CrawlState) (pageUrls : List String) : CrawlState :=
  pageUrls.foldl addPage st

/-- Process one sitemap URL of the current level: skip it when already
visited, otherwise mark it visited, fetch (recording the fetch), and on
data accumulate page URLs and enqueue unvisited children
(src/main.py lines 232-250). -/
def processSitemap (env : CrawlEnv) (acc : CrawlState × List String) (smUrl : String) :
    CrawlState × List String :=
  let (st, nextQueue) := acc
  if smUrl ∈ st.seenSitemaps then (st, nextQueue)
  else
    let st := { st with seenSitemaps := smUrl :: st.seenSitemaps,
                        fetchTrace := st.fetchTrace ++ [smUrl] }
    match env smUrl with
    | none => (st, nextQueue)
    | some (childSitemaps, pageUrls) =>
      let st := addPageUrls st pageUrls
      (st, nextQueue ++ childSitemaps.filter (fun c => c ∉ st.seenSitemaps))

/-- Process one whole level of the queue. -/
def processLevel (env : CrawlEnv) (st : CrawlState) (queue : List String) :
    CrawlState × List String :=
  queue.foldl (processSitemap env) (st, [])

/-- The while loop of _collect_urls_from_sitemaps: the fuel is the number of
levels still allowed (limit_depth minus the current depth). -/
def crawlLoop (env : CrawlEnv) : Nat → CrawlState → List String → CrawlState
  | 0, st, _ => st
  | fuel + 1, st, queue =>
    if queue = [] then st
    else
      let (st', nextQueue) := processLevel env st queue
      crawlLoop env fuel st' nextQueue

/-- Full final state of the crawl, including the fetch trace. -/
def crawlState (env : CrawlEnv) (entryUrls : List String) (limitDepth : Nat) : CrawlState :=
  crawlLoop env limitDepth CrawlState.init entryUrls

/-- Model of _collect_urls_from_sitemaps (src/main.py lines 217-255): the
ordered deduplicated page-URL sequence.  The default depth limit is 6. -/
def collectUrlsFromSitemaps (env : CrawlEnv) (entryUrls : List String)
    (limitDepth : Nat := 6) : List String :=
  (crawlState env entryUrls limitDepth).orderedUrls

/-! ## Per-domain pipeline (src/main.py, sanitize_campaign_name, _short,
_process_domain, indexdomains) -/

/-- Allowed characters of sanitize_campaign_name: letters, digits, space,
underscore, hyphen, dot, parentheses, square brackets. -/
def allowedNameChar (c : Char) : Bool :=
  (65 ≤ c.toNat && c.toNat ≤ 90) || (97 ≤ c.toNat && c.toNat ≤ 122)
    || (48 ≤ c.toNat && c.toNat ≤ 57)
    || c = ' ' || c = '_' || c = '-' || c = '.' || c = '(' || c = ')' || c = '[' || c = ']'

/-- Collapse adjacent spaces to one, the effect of re.sub(whitespace-run,
single space) after each whitespace character is mapped to a space. -/
def squeezeSpaces : List Char → List Char
  | [] => []
  | [c] => [c]
  | c :: d :: rest =>
    if c = ' ' && d = ' ' then squeezeSpaces (d :: rest)
    else c :: squeezeSpaces (d :: rest)

/-- Model of sanitize_campaign_name (src/main.py lines 54-58): collapse
whitespace runs to single spaces, strip, drop disallowed characters, cut to
120 characters. -/
def sanitizeCampaignName (name : String) : String :=
  let collapsed := squeezeSpaces (name.data.map (fun c => if wsChar c then ' ' else c))
  let stripped := pyStripChars collapsed
  String.mk ((stripped.filter allowedNameChar).take 120)

/-- Model of _short (src/main.py lines 67-69): truncate to n characters and
append an ellipsis when longer. -/
def shortPreview (s : String) (n : Nat) : String :=
  if s.data.length > n then String.mk (s.data.take n) ++ "…" else s

/-- One campaign entry of a DomainReport (src/main.py lines 574-579). -/
structure CampaignOutcome where
  name : String
  status : Nat
  dataPreview : String
  deriving DecidableEq, Repr

/-- Report dict built by _process_domain (src/main.py line 538). -/
structure DomainReport where
  domain : String
  host : String
  urlsCount : Nat
  campaigns : List CampaignOutcome
  error : Option String
  deriving DecidableEq, Repr

/-- Model of _process_domain (src/main.py lines 535-580).  The sitemap
environment env and the API behaviour api are the only further effects.
The call host = _norm_domain(domain) at line 537 sits outside both
try/except blocks, so a ValueError raised by urlparse escapes the coroutine
(the Except.error case); every other failure path fills the error field of
the returned report.  The api argument of the batch call raising
(Except.error) is caught by the try/except around the batch block and
recorded; the fetch layer never raises by construction of _fetch_bytes. -/
def processDomain (bracketCheck : List Char → Option (List Char)) (env : CrawlEnv)
    (api : String → List String → Except String ApiResult)
    (displayName : String) (userId : Nat) (domain : String) : Except String DomainReport :=
  match normDomain bracketCheck domain with
  | .error m => .error m
  | .ok host =>
    let base : DomainReport := ⟨domain, host, 0, [], none⟩
    if host = "" then .ok { base with error := some "Domain không hợp lệ" }
    else
      let entryPoints := discoverSitemapEntryPoints env host
      if entryPoints = [] then .ok { base with error := some "Không tìm thấy sitemap hợp lệ" }
      else
        let urls := collectUrlsFromSitemaps env entryPoints 6
        let deduped := dedupe urls
        let base := { base with urlsCount := deduped.length }
        if deduped = [] then .ok { base with error := some "Không thu thập được URL từ sitemap" }
        else
          let campaignBase :=
            sanitizeCampaignName (displayName ++ "_" ++ toString userId ++ "_" ++ host)
          match (callInBatches api campaignBase deduped 2000).2 with
          | .error e => .ok { base with error := some ("Lỗi gọi API 1hping: " ++ e) }
          | .ok batchResults =>
            .ok { base with
                  campaigns :=
                    batchResults.map (fun p => ⟨p.1, p.2.status, shortPreview p.2.data 800⟩) }

/-- Model of the gather in indexdomains (src/main.py lines 582-583): the
pipelines share no state, so when every coroutine returns a report the
joint run is the pointwise run; asyncio.gather is called with
return_exceptions=False, so a coroutine that raises makes gather propagate
the exception instead of producing any report list (the model surfaces the
first raising domain in list order). -/
def indexDomainsReports (bracketCheck : List Char → Option (List Char)) (env : CrawlEnv)
    (api : String → List String → Except String ApiResult)
    (displayName : String) (userId : Nat) : List String → Except String (List DomainReport)
  | [] => .ok []
  | d :: rest =>
    match processDomain bracketCheck env api displayName userId d with
    | .error e => .error e
    | .ok r =>
      match indexDomainsReports bracketCheck env api displayName userId rest with
      | .error e => .error e
      | .ok rs => .ok (r :: rs)

/-! ## Concrete scenario environments

Fixed fetch/parse environments and API behaviours used by the example parts
of the theorems below. -/

/-- Two sitemap documents listing pages [u1, u2] and [u1, u3]. -/
def envTwoDocs : CrawlEnv := fun u =>
  if u = "s1" then some ([], ["u1", "u2"])
  else if u = "s2" then some ([], ["u1", "u3"])
  else none

/-- A cyclic sitemap-index graph: a references b, b references a back. -/
def envCyclic : CrawlEnv := fun u =>
  if u = "a" then some (["b"], ["p1"])
  else if u = "b" then some (["a"], ["p2"])
  else none

/-- A sitemap-index chain of true depth 8, deeper than the default limit of
6; level k holds the page pk. -/
def envChain : CrawlEnv := fun u =>
  if u = "c1" then some (["c2"], ["p1"]) else
  if u = "c2" then some (["c3"], ["p2"]) else
  if u = "c3" then some (["c4"], ["p3"]) else
  if u = "c4" then some (["c5"], ["p4"]) else
  if u = "c5" then some (["c6"], ["p5"]) else
  if u = "c6" then some (["c7"], ["p6"]) else
  if u = "c7" then some (["c8"], ["p7"]) else
  if u = "c8" then some ([], ["p8"]) else none

/-- A host on which sitemap_index.xml fails to fetch but sitemap.xml is a
urlset with one page. -/
def envUrlsetOnly : CrawlEnv := fun u =>
  if u = "https://host/sitemap.xml" then some ([], ["pg1"]) else none

/-- A domain whose sitemap index references one child urlset. -/
def envGoodDomain : CrawlEnv := fun u =>
  if u = "https://good.com/sitemap_index.xml" then some (["https://good.com/a.xml"], [])
  else if u = "https://good.com/a.xml" then some ([], ["pa", "pb"])
  else none

/-- An API that accepts every request with status 200. -/
def apiAccepts : String → List String → Except String ApiResult :=
  fun _ _ => .ok ⟨200, "created"⟩

/-- A concrete instance of the abstracted _check_bracketed_host for the
example runs: it accepts the IPv6 loopback literal ::1 and rejects every
other bracketed host with the ipaddress module's message shape. -/
def bracketCheckSample : List Char → Option (List Char) :=
  fun h => if h = "::1".data then none
    else some "does not appear to be an IPv4 or IPv6 address".data

/-- An API whose transport fails (raises) on the first part of a two-part
submission and would accept anything else. -/
def apiFirstPartRaises : String → List String → Except String ApiResult :=
  fun n _ => if n = "base__part1" then .error "transport" else .ok ⟨200, "ok"⟩

/-- The loc child of the sitemap entry of the mixed document, in a
namespace of its own, with surrounding whitespace in the text. -/
def mixedNsLocChild1 : XmlElem := .node "nsB" "loc" (some "  http://child.xml ") .nil

/-- A sitemap-index entry of the mixed document. -/
def mixedNsSitemapElem : XmlElem := .node "nsA" "sitemap" none (.cons mixedNsLocChild1 .nil)

/-- The loc child of the urlset entry of the mixed document. -/
def mixedNsLocChild2 : XmlElem := .node "nsC" "loc" (some "http://page") .nil

/-- A urlset entry of the mixed document, itself in no namespace. -/
def mixedNsUrlElem : XmlElem := .node "" "url" none (.cons mixedNsLocChild2 .nil)

/-- A sitemap document mixing sitemap-index entries and urlset entries under
three different namespaces. -/
def mixedNsDoc : XmlElem :=
  .node "nsA" "sitemapindex" none (.cons mixedNsSitemapElem (.cons mixedNsUrlElem .nil))

/-! ## Invariant predicates used by the theorems -/

/-- Joint invariant of the crawl state: the collected page sequence has no
duplicate and is tracked by the seen-URL set, and the fetch trace has no
duplicate and is tracked by the visited-sitemap set. -/
def CrawlInv (st : CrawlState) : Prop :=
  st.orderedUrls.Nodup ∧ (∀ u ∈ st.orderedUrls, u ∈ st.seenUrls)
    ∧ st.fetchTrace.Nodup ∧ (∀ u ∈ st.fetchTrace, u ∈ st.seenSitemaps)

/-- Characterisation of the characters a normalized host can contain: fixed
under lower-casing, not a colon, not a netloc delimiter, not one of the
control characters urlsplit removes. -/
def GoodOutChar (c : Char) : Prop :=
  lcChar c = c ∧ c ≠ ':' ∧ urlDelim c = false ∧ ctlChar c = false

/-! # Theorems

Shared helper lemmas first, then one theorem (plus witness or
counterexample where required) per claim. -/

/-! ## Crawl invariants -/

theorem addPage_stable (st : CrawlState) (u : String) :
    (addPage st u).seenSitemaps = st.seenSitemaps ∧ (addPage st u).fetchTrace = st.fetchTrace := by
  unfold addPage
  split <;> simp

theorem addPage_inv (st : CrawlState) (u : String) (h : CrawlInv st) : CrawlInv (addPage st u) := by
  obtain ⟨h1, h2, h3, h4⟩ := h
  unfold addPage
  split
  · exact ⟨h1, h2, h3, h4⟩
  · rename_i hu
    refine ⟨?_, ?_, h3, h4⟩
    · simpa [List.nodup_append, h1] using fun hmem => hu (h2 u hmem)
    · intro v hv
      rcases List.mem_append.mp hv with hv | hv
      · exact List.mem_cons_of_mem _ (h2 v hv)
      · simp at hv
        simp [hv]

theorem addPageUrls_stable (ps : List String) (st : CrawlState) :
    (addPageUrls st ps).seenSitemaps = st.seenSitemaps
      ∧ (addPageUrls st ps).fetchTrace = st.fetchTrace := by
  induction ps generalizing st with
  | nil => exact ⟨rfl, rfl⟩
  | cons p rest ih =>
    have hs := addPage_stable st p
    have hr := ih (addPage st p)
    unfold addPageUrls at hr ⊢
    simp only [List.foldl_cons]
    exact ⟨hr.1.trans hs.1, hr.2.trans hs.2⟩

theorem addPageUrls_inv (ps : List String) (st : CrawlState) (h : CrawlInv st) :
    CrawlInv (addPageUrls st ps) := by
  induction ps generalizing st with
  | nil => exact h
  | cons p rest ih =>
    unfold addPageUrls
    simp only [List.foldl_cons]
    exact ih (addPage st p) (addPage_inv st p h)

theorem processSitemap_inv (env : CrawlEnv) (st : CrawlState) (nq : List String)
    (sm : String) (h : CrawlInv st) : CrawlInv (processSitemap env (st, nq) sm).1 := by
  obtain ⟨h1, h2, h3, h4⟩ := h
  unfold processSitemap
  simp only
  split
  · exact ⟨h1, h2, h3, h4⟩
  · rename_i hsm
    have hmid : CrawlInv { st with seenSitemaps := sm :: st.seenSitemaps,
                                   fetchTrace := st.fetchTrace ++ [sm] } := by
      refine ⟨h1, h2, ?_, ?_⟩
      · simpa [List.nodup_append, h3] using fun hmem => hsm (h4 sm hmem)
      · intro v hv
        rcases List.mem_append.mp hv with hv | hv
        · exact List.mem_cons_of_mem _ (h4 v hv)
        · simp at hv
          simp [hv]
    split
    · exact hmid
    · exact addPageUrls_inv _ _ hmid

theorem processLevel_foldl_inv (env : CrawlEnv) (queue : List String) (st : CrawlState)
    (nq : List String) (h : CrawlInv st) :
    CrawlInv (queue.foldl (processSitemap env) (st, nq)).1 := by
  induction queue generalizing st nq with
  | nil => exact h
  | cons sm rest ih =>
    simp only [List.foldl_cons]
    have hstep := processSitemap_inv env st nq sm h
    obtain ⟨st', nq', hpair⟩ : ∃ a b, processSitemap env (st, nq) sm = (a, b) :=
      ⟨_, _, rfl⟩
    rw [hpair]
    rw [hpair] at hstep
    exact ih st' nq' hstep

theorem crawlLoop_inv (env : CrawlEnv) (fuel : Nat) (st : CrawlState) (queue : List String)
    (h : CrawlInv st) : CrawlInv (crawlLoop env fuel st queue) := by
  induction fuel generalizing st queue with
  | zero => exact h
  | succ f ih =>
    unfold crawlLoop
    split
    · exact h
    · exact ih _ _ (processLevel_foldl_inv env queue st [] h)

theorem crawlState_inv (env : CrawlEnv) (entryUrls : List String) (d : Nat) :
    CrawlInv (crawlState env entryUrls d) :=
  crawlLoop_inv env d CrawlState.init entryUrls
    ⟨List.nodup_nil, fun u hu => absurd hu (List.not_mem_nil u),
     List.nodup_nil, fun u hu => absurd hu (List.not_mem_nil u)⟩

/-! ## Claim C1 -/

/-- C1: for every entry-point list and every fetch/parse outcome per sitemap
URL, the page-URL sequence returned by the recursive crawl contains no URL
twice, and the URLs appear in first-seen order of the breadth-first
level-by-level traversal; in particular the inputs [u1, u2, u1, u3]
arriving across two sitemap documents yield the sequence [u1, u2, u3]. -/
theorem collect_nodup_first_seen_order :
    (∀ (env : CrawlEnv) (entryUrls : List String) (d : Nat),
      (collectUrlsFromSitemaps env entryUrls d).Nodup)
    ∧ collectUrlsFromSitemaps envTwoDocs ["s1", "s2"] 6 = ["u1", "u2", "u3"] :=
  ⟨fun env entryUrls d => (crawlState_inv env entryUrls d).1, by decide⟩

/-! ## Claim C2 -/

/-- C2: for every entry-point list and every server behaviour, including a
cyclic sitemap-index graph, the crawl performs only finitely many fetches
(the fetch trace of the final state) and each sitemap URL is fetched at most
once; on a cyclic graph a -> b -> a the trace is exactly [a, b]; on a chain
of true depth 8 with the default limit of 6 only the first 6 levels are
fetched and the page URLs collected before the depth bound is hit are
returned rather than discarded. -/
theorem crawl_finite_fetches_depth_bound :
    (∀ (env : CrawlEnv) (entryUrls : List String) (d : Nat),
      (crawlState env entryUrls d).fetchTrace.Nodup)
    ∧ (crawlState envCyclic ["a"] 6).fetchTrace = ["a", "b"]
    ∧ collectUrlsFromSitemaps envCyclic ["a"] 6 = ["p1", "p2"]
    ∧ (crawlState envChain ["c1"] 6).fetchTrace = ["c1", "c2", "c3", "c4", "c5", "c6"]
    ∧ collectUrlsFromSitemaps envChain ["c1"] 6 = ["p1", "p2", "p3", "p4", "p5", "p6"] :=
  ⟨fun env entryUrls d => (crawlState_inv env entryUrls d).2.2.1,
   by decide, by decide, by decide, by decide⟩

/-! ## Chunking lemmas -/

theorem chunkPos_succ (f : Nat) (lst : List String) (s : Nat) :
    chunkPos (f + 1) lst s = if lst = [] then [] else lst.take s :: chunkPos f (lst.drop s) s :=
  rfl

theorem chunkPos_nil (f s : Nat) : chunkPos f [] s = [] := by
  cases f <;> rfl

theorem chunkPos_join (s : Nat) (hs : 0 < s) :
    ∀ (fuel : Nat) (lst : List String), lst.length ≤ fuel → (chunkPos fuel lst s).flatten = lst := by
  intro fuel
  induction fuel with
  | zero =>
    intro lst h
    rw [List.eq_nil_of_length_eq_zero (Nat.le_zero.mp h)]
    rfl
  | succ f ih =>
    intro lst h
    rw [chunkPos_succ]
    split
    · simp [*]
    · rename_i hne
      have hlen : 0 < lst.length := List.length_pos.mpr hne
      have : (lst.drop s).length ≤ f := by
        rw [List.length_drop]
        omega
      rw [List.flatten_cons, ih _ this, List.take_append_drop]

theorem chunkPos_mem (s : Nat) (hs : 0 < s) :
    ∀ (fuel : Nat) (lst : List String), ∀ p ∈ chunkPos fuel lst s, p.length ≤ s ∧ p ≠ [] := by
  intro fuel
  induction fuel with
  | zero =>
    intro lst p hp
    exact absurd hp (List.not_mem_nil p)
  | succ f ih =>
    intro lst p hp
    rw [chunkPos_succ] at hp
    split at hp
    · exact absurd hp (List.not_mem_nil p)
    · rename_i hne
      rcases List.mem_cons.mp hp with hp | hp
      · subst hp
        constructor
        · simp [List.length_take]
        · simp only [ne_eq, List.take_eq_nil_iff]
          push_neg
          exact ⟨by omega, hne⟩
      · exact ih _ p hp

theorem chunkPos_single (s : Nat) (lst : List String)
    (h1 : lst ≠ []) (h2 : lst.length ≤ s) : chunkPos lst.length lst s = [lst] := by
  obtain ⟨m, hm⟩ := Nat.exists_eq_succ_of_ne_zero (fun h => h1 (List.eq_nil_of_length_eq_zero h))
  rw [hm, chunkPos_succ, if_neg h1, List.take_of_length_le h2,
      List.drop_eq_nil_of_le h2, chunkPos_nil]

theorem callBatchesLoop_ok (api' : String → List String → ApiResult) (name : String)
    (total : Nat) :
    ∀ (parts : List (List String)) (idx : Nat),
      callBatchesLoop (fun n us => Except.ok (api' n us)) name total parts idx
        = ((List.range parts.length).map (fun i => batchName name total (idx + i)),
           Except.ok ((List.range parts.length).map (fun i =>
              (batchName name total (idx + i),
               api' (batchName name total (idx + i)) (parts.getD i []))))) := by
  intro parts
  induction parts with
  | nil => intro idx; rfl
  | cons p rest ih =>
    intro idx
    have step : callBatchesLoop (fun n us => Except.ok (api' n us)) name total (p :: rest) idx
        = (batchName name total idx
             :: (callBatchesLoop (fun n us => Except.ok (api' n us)) name total rest (idx + 1)).1,
           match (callBatchesLoop (fun n us => Except.ok (api' n us)) name total rest (idx + 1)).2 with
           | .error e => .error e
           | .ok results =>
              .ok ((batchName name total idx, api' (batchName name total idx) p) :: results)) := rfl
    rw [step, ih (idx + 1)]
    simp only [List.length_cons, List.range_succ_eq_map, List.map_cons, List.map_map,
      Nat.add_zero, List.getD_cons_zero, Prod.mk.injEq]
    refine ⟨congrArg₂ List.cons rfl ?_, congrArg Except.ok (congrArg₂ List.cons rfl ?_)⟩
    · apply List.map_congr_left
      intro i _
      simp only [Function.comp_apply, Nat.succ_eq_add_one]
      rw [show idx + 1 + i = idx + (i + 1) from by omega]
    · apply List.map_congr_left
      intro i _
      simp only [Function.comp_apply, Nat.succ_eq_add_one, List.getD_cons_succ]
      rw [show idx + 1 + i = idx + (i + 1) from by omega]

/-! ## Claim C3 -/

/-- C3 (amended to a positive batch size and a nonempty single-batch list):
for every URL list and every positive batch size, the batch submitter
partitions the list into contiguous batches of at most the batch size whose
concatenation equals the original list; a nonempty list that fits in one
batch forms the single batch [urls] and is submitted under the unmodified
base name, while k batches are submitted under the names produced by
batchName in ascending order (base__part1 ... base__partk when k > 1); in
particular 4500 URLs with batch size 2000 produce exactly 3 batches of
sizes 2000, 2000, 500 named base__part1, base__part2, base__part3. -/
theorem batching_partition_and_names :
    (∀ (name : String) (urls : List String) (size : Int), 0 < size →
      ∃ parts, pyChunk urls size = Except.ok parts
        ∧ parts.flatten = urls
        ∧ (∀ p ∈ parts, p.length ≤ size.toNat ∧ p ≠ [])
        ∧ (urls ≠ [] → urls.length ≤ size.toNat → parts = [urls])
        ∧ (∀ api' : String → List String → ApiResult,
            callInBatches (fun n us => Except.ok (api' n us)) name urls size
              = ((List.range parts.length).map (fun i => batchName name parts.length (1 + i)),
                 Except.ok ((List.range parts.length).map (fun i =>
                   (batchName name parts.length (1 + i),
                    api' (batchName name parts.length (1 + i)) (parts.getD i [])))))))
    ∧ (∀ (name : String) (l : List String), l.length = 4500 →
        ∃ p1 p2 p3, pyChunk l 2000 = Except.ok [p1, p2, p3]
          ∧ p1.length = 2000 ∧ p2.length = 2000 ∧ p3.length = 500
          ∧ p1 ++ (p2 ++ p3) = l
          ∧ (callInBatches apiAccepts name l 2000).1
              = [name ++ "__part1", name ++ "__part2", name ++ "__part3"]) := by
  have hone : batchName "x" 1 1 = "x" := rfl
  have main : ∀ (name : String) (urls : List String) (size : Int), 0 < size →
      ∃ parts, pyChunk urls size = Except.ok parts
        ∧ parts.flatten = urls
        ∧ (∀ p ∈ parts, p.length ≤ size.toNat ∧ p ≠ [])
        ∧ (urls ≠ [] → urls.length ≤ size.toNat → parts = [urls])
        ∧ (∀ api' : String → List String → ApiResult,
            callInBatches (fun n us => Except.ok (api' n us)) name urls size
              = ((List.range parts.length).map (fun i => batchName name parts.length (1 + i)),
                 Except.ok ((List.range parts.length).map (fun i =>
                   (batchName name parts.length (1 + i),
                    api' (batchName name parts.length (1 + i)) (parts.getD i [])))))) := by
    intro name urls size hpos
    have hs : 0 < size.toNat := by omega
    have hchunk : pyChunk urls size = Except.ok (chunkPos urls.length urls size.toNat) := by
      unfold pyChunk
      rw [if_neg (by omega), if_neg (by omega)]
    refine ⟨chunkPos urls.length urls size.toNat, hchunk,
      chunkPos_join size.toNat hs urls.length urls le_rfl,
      chunkPos_mem size.toNat hs urls.length urls,
      fun h1 h2 => chunkPos_single size.toNat urls h1 h2, ?_⟩
    intro api'
    by_cases hurls : urls = []
    · subst hurls
      rfl
    · unfold callInBatches
      rw [if_neg hurls, hchunk]
      exact callBatchesLoop_ok api' name _ _ 1
  refine ⟨main, ?_⟩
  intro name l hl
  have hne : l ≠ [] := by
    intro h
    rw [h] at hl
    simp at hl
  have hd1 : (l.drop 2000).length = 2500 := by rw [List.length_drop, hl]
  have hne1 : l.drop 2000 ≠ [] := by
    intro h
    rw [h] at hd1
    simp at hd1
  have hd2 : ((l.drop 2000).drop 2000).length = 500 := by rw [List.length_drop, hd1]
  have hne2 : (l.drop 2000).drop 2000 ≠ [] := by
    intro h
    rw [h] at hd2
    simp at hd2
  have hd3 : (((l.drop 2000).drop 2000).drop 2000) = [] := by
    apply List.eq_nil_of_length_eq_zero
    rw [List.length_drop, hd2]
  have htake3 : ((l.drop 2000).drop 2000).take 2000 = (l.drop 2000).drop 2000 :=
    List.take_of_length_le (by omega)
  have hparts : chunkPos l.length l 2000
      = [l.take 2000, (l.drop 2000).take 2000, (l.drop 2000).drop 2000] := by
    rw [hl]
    rw [show (4500 : Nat) = 4499 + 1 by norm_num, chunkPos_succ, if_neg hne]
    rw [show (4499 : Nat) = 4498 + 1 by norm_num, chunkPos_succ, if_neg hne1]
    rw [show (4498 : Nat) = 4497 + 1 by norm_num, chunkPos_succ, if_neg hne2]
    rw [htake3, hd3, chunkPos_nil]
  obtain ⟨parts, hchunk, _, _, _, hapi⟩ := main name l 2000 (by norm_num)
  have hchunk2 : pyChunk l 2000
      = Except.ok [l.take 2000, (l.drop 2000).take 2000, (l.drop 2000).drop 2000] := by
    unfold pyChunk
    rw [if_neg (by norm_num), if_neg (by norm_num)]
    rw [show ((2000 : Int)).toNat = 2000 from rfl, hparts]
  have hparts' : parts = [l.take 2000, (l.drop 2000).take 2000, (l.drop 2000).drop 2000] :=
    Except.ok.inj (hchunk.symm.trans hchunk2)
  refine ⟨l.take 2000, (l.drop 2000).take 2000, (l.drop 2000).drop 2000,
    by rw [hchunk, hparts'], by simp [List.length_take, hl], by simp [List.length_take, hd1],
    hd2, by rw [List.take_append_drop, List.take_append_drop], ?_⟩
  have happlied := congrArg Prod.fst (hapi (fun _ _ => ⟨200, "created"⟩))
  rw [hparts'] at happlied
  refine happlied.trans ?_
  have h1 : ∀ k : Nat, batchName name 3 k = name ++ ("__part" ++ toString k) := by
    intro k
    unfold batchName
    rw [if_neg (by norm_num), String.append_assoc]
  show List.map (fun i => batchName name 3 (1 + i)) (List.range 3) = _
  rw [show List.range 3 = [0, 1, 2] from rfl]
  simp only [List.map_cons, List.map_nil, h1]
  rfl

/-- C3 witness: the general part applied to URL list [a, b, c] with batch
size 2, and the concrete part applied to 4500 copies of u. -/
theorem batching_partition_and_names_witness :
    (∃ parts, pyChunk ["a", "b", "c"] 2 = Except.ok parts
      ∧ parts.flatten = ["a", "b", "c"]
      ∧ (∀ p ∈ parts, p.length ≤ (2 : Int).toNat ∧ p ≠ [])
      ∧ (["a", "b", "c"] ≠ [] → (["a", "b", "c"] : List String).length ≤ (2 : Int).toNat →
          parts = [["a", "b", "c"]])
      ∧ (∀ api' : String → List String → ApiResult,
          callInBatches (fun n us => Except.ok (api' n us)) "base" ["a", "b", "c"] 2
            = ((List.range parts.length).map (fun i => batchName "base" parts.length (1 + i)),
               Except.ok ((List.range parts.length).map (fun i =>
                 (batchName "base" parts.length (1 + i),
                  api' (batchName "base" parts.length (1 + i)) (parts.getD i [])))))))
    ∧ (∃ p1 p2 p3, pyChunk (List.replicate 4500 "u") 2000 = Except.ok [p1, p2, p3]
        ∧ p1.length = 2000 ∧ p2.length = 2000 ∧ p3.length = 500
        ∧ p1 ++ (p2 ++ p3) = List.replicate 4500 "u"
        ∧ (callInBatches apiAccepts "base" (List.replicate 4500 "u") 2000).1
            = ["base__part1", "base__part2", "base__part3"]) :=
  ⟨batching_partition_and_names.1 "base" ["a", "b", "c"] 2 (by norm_num),
   batching_partition_and_names.2 "base" (List.replicate 4500 "u") (List.length_replicate 4500 "u")⟩

/-- C3 counterexample: with batch size 0 and a nonempty list the chunker
raises ValueError instead of partitioning (the exception escapes
call_1hping_in_batches); with a negative batch size all URLs are silently
dropped; with an empty list nothing at all is submitted even though the
empty list fits in one batch.  The claim quantifies over every batch size,
so it fails on the code. -/
theorem batching_partition_and_names_cex :
    pyChunk ["u1"] 0 = Except.error "range() arg 3 must not be zero"
    ∧ (callInBatches apiAccepts "base" ["u1"] 0).2
        = Except.error "range() arg 3 must not be zero"
    ∧ (callInBatches apiAccepts "base" ["u1"] (-1)).2 = Except.ok []
    ∧ (callInBatches apiAccepts "base" [] 2000).2 = Except.ok []
    ∧ (callInBatches apiAccepts "base" [] 2000).1 = [] :=
  ⟨rfl, rfl, rfl, rfl, rfl⟩

/-! ## Claim C8 -/

/-- C8 (amended): each batch is submitted as an independent request; a
non-2xx response on one batch does not prevent the remaining batches from
being attempted, and with an API that never raises every batch receives
exactly one result entry recording the submitted name and the observed
status and body, whatever the statuses are; a transport failure (raised
exception) on a batch, however, aborts the remaining batches and propagates
to the caller, so those batches are never attempted and no per-batch record
is returned for the whole submission. -/
theorem batch_failure_independence :
    (∀ (name : String) (urls : List String) (size : Int)
       (api' : String → List String → ApiResult), 0 < size →
      ∃ parts, pyChunk urls size = Except.ok parts
        ∧ (callInBatches (fun n us => Except.ok (api' n us)) name urls size).1.length
            = parts.length
        ∧ (callInBatches (fun n us => Except.ok (api' n us)) name urls size).2
            = Except.ok ((List.range parts.length).map (fun i =>
                (batchName name parts.length (1 + i),
                 api' (batchName name parts.length (1 + i)) (parts.getD i [])))))
    ∧ (∀ (name : String) (urls : List String) (size : Int)
       (api : String → List String → Except String ApiResult)
       (p : List String) (rest : List (List String)) (e : String),
        urls ≠ [] → pyChunk urls size = Except.ok (p :: rest) →
        api (batchName name (rest.length + 1) 1) p = Except.error e →
        callInBatches api name urls size
          = ([batchName name (rest.length + 1) 1], Except.error e)) := by
  constructor
  · intro name urls size api' hpos
    have hs : 0 < size.toNat := by omega
    have hchunk : pyChunk urls size = Except.ok (chunkPos urls.length urls size.toNat) := by
      unfold pyChunk
      rw [if_neg (by omega), if_neg (by omega)]
    have hloop := callBatchesLoop_ok api' name (chunkPos urls.length urls size.toNat).length
      (chunkPos urls.length urls size.toNat) 1
    refine ⟨chunkPos urls.length urls size.toNat, hchunk, ?_, ?_⟩
    · by_cases hurls : urls = []
      · subst hurls
        rfl
      · unfold callInBatches
        rw [if_neg hurls, hchunk]
        show (callBatchesLoop (fun n us => Except.ok (api' n us)) name
            (chunkPos urls.length urls size.toNat).length
            (chunkPos urls.length urls size.toNat) 1).1.length
          = (chunkPos urls.length urls size.toNat).length
        rw [hloop]
        simp
    · by_cases hurls : urls = []
      · subst hurls
        have : chunkPos ([] : List String).length [] size.toNat = [] := rfl
        rw [this]
        rfl
      · unfold callInBatches
        rw [if_neg hurls, hchunk]
        show (callBatchesLoop (fun n us => Except.ok (api' n us)) name
            (chunkPos urls.length urls size.toNat).length
            (chunkPos urls.length urls size.toNat) 1).2 = _
        rw [hloop]
  · intro name urls size api p rest e hurls hchunk hapi
    unfold callInBatches
    rw [if_neg hurls, hchunk]
    show callBatchesLoop api name (rest.length + 1) (p :: rest) 1 = _
    rw [callBatchesLoop]
    rw [hapi]

/-- C8 witness: the non-raising part applied to three URLs with batch size
2 under an API answering 404 to the first batch and 200 to the second (both
batches attempted and recorded), and the abort part applied to the same
split with a transport failure on the first batch. -/
theorem batch_failure_independence_witness :
    (∃ parts, pyChunk ["a", "b", "c"] 2 = Except.ok parts
      ∧ (callInBatches
            (fun n us => Except.ok ((fun nm _ => if nm = "base__part1" then (⟨404, "nf"⟩ : ApiResult)
                else ⟨200, "okay"⟩) n us)) "base" ["a", "b", "c"] 2).1.length = parts.length
      ∧ (callInBatches
            (fun n us => Except.ok ((fun nm _ => if nm = "base__part1" then (⟨404, "nf"⟩ : ApiResult)
                else ⟨200, "okay"⟩) n us)) "base" ["a", "b", "c"] 2).2
          = Except.ok ((List.range parts.length).map (fun i =>
              (batchName "base" parts.length (1 + i),
               (fun nm _ => if nm = "base__part1" then (⟨404, "nf"⟩ : ApiResult) else ⟨200, "okay"⟩)
                 (batchName "base" parts.length (1 + i)) (parts.getD i [])))))
    ∧ callInBatches apiFirstPartRaises "base" ["a", "b", "c"] 2
        = (["base__part1"], Except.error "transport") :=
  ⟨batch_failure_independence.1 "base" ["a", "b", "c"] 2 _ (by norm_num),
   batch_failure_independence.2 "base" ["a", "b", "c"] 2 apiFirstPartRaises
     ["a", "b"] [["c"]] "transport" (by decide) rfl rfl⟩

/-- C8 counterexample: under a transport failure on the first of two
batches, only base__part1 is ever attempted — base__part2 is never
submitted and the whole call yields the propagated exception instead of
per-batch records, refuting the claim that one batch's transport failure
does not prevent the remaining batches from being attempted. -/
theorem batch_failure_independence_cex :
    (callInBatches apiFirstPartRaises "base" ["u1", "u2", "u3"] 2).1 = ["base__part1"]
    ∧ "base__part2" ∉ (callInBatches apiFirstPartRaises "base" ["u1", "u2", "u3"] 2).1
    ∧ (callInBatches apiFirstPartRaises "base" ["u1", "u2", "u3"] 2).2
        = Except.error "transport" :=
  ⟨by decide, by decide, rfl⟩

/-! ## Claim C4 -/

theorem probe_skip_append (env : CrawlEnv) (pre rest : List String)
    (h : ∀ u ∈ pre, env u = none ∨ env u = some ([], [])) :
    probeEntryPoints env (pre ++ rest) = probeEntryPoints env rest := by
  induction pre with
  | nil => rfl
  | cons u us ih =>
    have hu := h u (List.mem_cons_self u us)
    have step : probeEntryPoints env (u :: (us ++ rest))
        = (match env u with
           | none => probeEntryPoints env (us ++ rest)
           | some (childSitemaps, pageUrls) =>
             if childSitemaps ≠ [] then u :: childSitemaps
             else if pageUrls ≠ [] then [u]
             else probeEntryPoints env (us ++ rest)) := rfl
    have ih' := ih (fun v hv => h v (List.mem_cons_of_mem u hv))
    rcases hu with hu | hu
    · rw [List.cons_append, step, hu]
      exact ih'
    · rw [List.cons_append, step, hu]
      exact ih'

/-- C4: for every canonical host, entry-point discovery probes the
candidates {https, http} x {sitemap_index.xml, sitemap.xml} strictly in
order for the bare host then its www. variant (the www. variant is skipped
when the host already starts with www.), skipping candidates that yield no
data or parse to nothing; the first candidate with a nonempty child-sitemap
list wins as itself plus its children (deduplicated preserving order), the
first candidate with an empty child list but nonempty page list wins alone,
and when no candidate succeeds the entry-point set is empty. -/
theorem discovery_probe_order :
    (∀ host : String, "www.".data.isPrefixOf host.data = false →
      candidateSitemapUrls host
        = ["https://" ++ host ++ "/sitemap_index.xml",
           "https://" ++ host ++ "/sitemap.xml",
           "http://" ++ host ++ "/sitemap_index.xml",
           "http://" ++ host ++ "/sitemap.xml",
           "https://" ++ ("www." ++ host) ++ "/sitemap_index.xml",
           "https://" ++ ("www." ++ host) ++ "/sitemap.xml",
           "http://" ++ ("www." ++ host) ++ "/sitemap_index.xml",
           "http://" ++ ("www." ++ host) ++ "/sitemap.xml"])
    ∧ (∀ host : String, "www.".data.isPrefixOf host.data = true →
      candidateSitemapUrls host
        = ["https://" ++ host ++ "/sitemap_index.xml",
           "https://" ++ host ++ "/sitemap.xml",
           "http://" ++ host ++ "/sitemap_index.xml",
           "http://" ++ host ++ "/sitemap.xml"])
    ∧ (∀ (env : CrawlEnv) (host : String),
        (∀ u ∈ candidateSitemapUrls host, env u = none ∨ env u = some ([], [])) →
        discoverSitemapEntryPoints env host = [])
    ∧ (∀ (env : CrawlEnv) (host : String) (pre post : List String) (url : String)
        (cs ps : List String),
        candidateSitemapUrls host = pre ++ url :: post →
        (∀ u ∈ pre, env u = none ∨ env u = some ([], [])) →
        env url = some (cs, ps) → cs ≠ [] →
        discoverSitemapEntryPoints env host = dedupe (url :: cs))
    ∧ (∀ (env : CrawlEnv) (host : String) (pre post : List String) (url : String)
        (ps : List String),
        candidateSitemapUrls host = pre ++ url :: post →
        (∀ u ∈ pre, env u = none ∨ env u = some ([], [])) →
        env url = some ([], ps) → ps ≠ [] →
        discoverSitemapEntryPoints env host = [url]) := by
  refine ⟨?_, ?_, ?_, ?_, ?_⟩
  · intro host h
    unfold candidateSitemapUrls
    rw [h]
    rfl
  · intro host h
    unfold candidateSitemapUrls
    rw [h]
    rfl
  · intro env host h
    unfold discoverSitemapEntryPoints
    have : probeEntryPoints env (candidateSitemapUrls host)
        = probeEntryPoints env (candidateSitemapUrls host ++ []) := by
      rw [List.append_nil]
    rw [this, probe_skip_append env _ [] h]
    rfl
  · intro env host pre post url cs ps hc hpre henv hcs
    unfold discoverSitemapEntryPoints
    rw [hc, probe_skip_append env pre (url :: post) hpre]
    have step : probeEntryPoints env (url :: post)
        = (match env url with
           | none => probeEntryPoints env post
           | some (childSitemaps, pageUrls) =>
             if childSitemaps ≠ [] then url :: childSitemaps
             else if pageUrls ≠ [] then [url]
             else probeEntryPoints env post) := rfl
    rw [step, henv]
    show dedupe (if cs ≠ [] then url :: cs else if ps ≠ [] then [url]
      else probeEntryPoints env post) = dedupe (url :: cs)
    rw [if_pos hcs]
  · intro env host pre post url ps hc hpre henv hps
    unfold discoverSitemapEntryPoints
    rw [hc, probe_skip_append env pre (url :: post) hpre]
    have step : probeEntryPoints env (url :: post)
        = (match env url with
           | none => probeEntryPoints env post
           | some (childSitemaps, pageUrls) =>
             if childSitemaps ≠ [] then url :: childSitemaps
             else if pageUrls ≠ [] then [url]
             else probeEntryPoints env post) := rfl
    rw [step, henv]
    show dedupe (if ps ≠ [] then [url] else probeEntryPoints env post) = [url]
    rw [if_pos hps]
    rfl

/-- C4 witness: on the host host, where sitemap_index.xml yields no data
and sitemap.xml parses to a urlset with one page, discovery returns exactly
[https://host/sitemap.xml], matching the spec example. -/
theorem discovery_probe_order_witness :
    discoverSitemapEntryPoints envUrlsetOnly "host" = ["https://host/sitemap.xml"] :=
  discovery_probe_order.2.2.2.2 envUrlsetOnly "host"
    ["https://host/sitemap_index.xml"]
    ["http://host/sitemap_index.xml", "http://host/sitemap.xml",
     "https://www.host/sitemap_index.xml", "https://www.host/sitemap.xml",
     "http://www.host/sitemap_index.xml", "http://www.host/sitemap.xml"]
    "https://host/sitemap.xml" ["pg1"]
    (by decide) (by decide) rfl (by decide)

/-! ## Claim C5 -/

/-- C5 (amended): the sitemap fetch returns the (gzip-processed) body bytes
exactly when the HTTP status is 200; it returns no data, without raising,
on every other status — including other 2xx statuses such as 201 — and on
every transport failure or timeout (a raised exception, modelled as an
absent response). -/
theorem fetch_requires_status_200 :
    (∀ (gunzip : List Nat → Option (List Nat)) (url : String),
      fetchBytes gunzip url none = none)
    ∧ (∀ (gunzip : List Nat → Option (List Nat)) (url : String) (r : HttpResponse),
        r.status ≠ 200 → fetchBytes gunzip url (some r) = none)
    ∧ (∀ (gunzip : List Nat → Option (List Nat)) (url : String) (r : HttpResponse),
        r.status = 200 →
        ∃ b, fetchBytes gunzip url (some r) = some b
          ∧ (gunzip r.body = some b ∨ b = r.body)) := by
  refine ⟨fun _ _ => rfl, ?_, ?_⟩
  · intro gunzip url r h
    simp only [fetchBytes]
    rw [if_pos h]
  · intro gunzip url r h
    simp only [fetchBytes]
    rw [if_neg (fun hn => hn h)]
    split
    · rename_i hgz
      cases hgun : gunzip r.body with
      | none => exact ⟨r.body, rfl, Or.inr rfl⟩
      | some d => exact ⟨d, rfl, Or.inl rfl⟩
    · exact ⟨r.body, rfl, Or.inr rfl⟩

/-- C5 witness: a transport failure yields none; a 404 yields none; a 200
with a plain body yields the body. -/
theorem fetch_requires_status_200_witness :
    fetchBytes (fun _ => none) "https://h/sitemap.xml" none = none
    ∧ fetchBytes (fun _ => none) "https://h/sitemap.xml" (some ⟨404, [1], "text/xml"⟩) = none
    ∧ (∃ b, fetchBytes (fun _ => none) "https://h/sitemap.xml" (some ⟨200, [1, 2], "text/xml"⟩)
          = some b
        ∧ ((fun _ => (none : Option (List Nat))) ([1, 2] : List Nat) = some b ∨ b = [1, 2])) :=
  ⟨fetch_requires_status_200.1 (fun _ => none) "https://h/sitemap.xml",
   fetch_requires_status_200.2.1 (fun _ => none) "https://h/sitemap.xml" ⟨404, [1], "text/xml"⟩
     (by decide),
   fetch_requires_status_200.2.2 (fun _ => none) "https://h/sitemap.xml" ⟨200, [1, 2], "text/xml"⟩
     rfl⟩

/-- C5 counterexample: status 201 is a 2xx status, yet the fetch returns
none rather than the body [60, 63], refuting the claim that any 2xx status
yields the body bytes. -/
theorem fetch_requires_status_200_cex :
    (200 ≤ 201 ∧ 201 < 300)
    ∧ fetchBytes (fun b => some b) "https://h/sitemap.xml" (some ⟨201, [60, 63], "text/xml"⟩)
        = none
    ∧ fetchBytes (fun b => some b) "https://h/sitemap.xml" (some ⟨201, [60, 63], "text/xml"⟩)
        ≠ some [60, 63] :=
  ⟨by norm_num, by decide, by decide⟩

/-! ## Claim C6 -/

/-- C6: on a successful (status 200) fetch, if the URL ends in .gz (case
insensitively) or the content-type mentions gzip, the body is
gzip-decompressed before being returned; if decompression fails the raw
undecompressed bytes are returned instead of the fetch failing. -/
theorem fetch_gzip_decompress :
    ∀ (gunzip : List Nat → Option (List Nat)) (url : String) (r : HttpResponse),
      r.status = 200 →
      (strEndsWith (pyLower url) ".gz" = true ∨ strContains r.contentType "gzip" = true) →
      ((∀ d, gunzip r.body = some d → fetchBytes gunzip url (some r) = some d)
        ∧ (gunzip r.body = none → fetchBytes gunzip url (some r) = some r.body)) := by
  intro gunzip url r h200 hcond
  have hbool : (strEndsWith (pyLower url) ".gz" || strContains r.contentType "gzip"
      || strContains r.contentType "application/gzip") = true := by
    rcases hcond with h | h <;> simp [h]
  simp only [fetchBytes]
  rw [if_neg (fun hn => hn h200), if_pos hbool]
  constructor
  · intro d hd
    rw [hd]
  · intro hd
    rw [hd]

/-- C6 witness: a .xml.gz URL whose body decompresses is returned
decompressed, and a mislabeled (content-type gzip) but uncompressed body on
which decompression raises is returned raw. -/
theorem fetch_gzip_decompress_witness :
    fetchBytes (fun b => if b = [31, 139] then some [60, 63] else none)
      "https://h/sitemap.xml.gz" (some ⟨200, [31, 139], ""⟩) = some [60, 63]
    ∧ fetchBytes (fun _ => none) "https://h/sitemap" (some ⟨200, [60, 63], "application/gzip"⟩)
        = some [60, 63] :=
  ⟨(fetch_gzip_decompress (fun b => if b = [31, 139] then some [60, 63] else none)
      "https://h/sitemap.xml.gz" ⟨200, [31, 139], ""⟩ rfl (Or.inl (by decide))).1
      [60, 63] (by decide),
   (fetch_gzip_decompress (fun _ => none)
      "https://h/sitemap" ⟨200, [60, 63], "application/gzip"⟩ rfl (Or.inr (by decide))).2 rfl⟩

/-! ## Claim C7 -/

/-- C7: the sitemap parser never raises: unparseable input (a failed
ET.fromstring, modelled as an absent tree) yields two empty lists, and on a
successful parse both extractions always run: every descendant sitemap
element with a nonempty stripped loc text contributes to the first list and
every descendant url element likewise to the second, matched by local name
only, whatever the namespaces — so a document mixing both shapes under
three namespaces returns both lists filled. -/
theorem parser_never_raises_both_extractions :
    parseSitemapXml none = ([], [])
    ∧ (∀ (root e : XmlElem) (t : String),
        e ∈ descendantsList root.children → e.localName = "sitemap" → locText e = some t →
        t ∈ (parseSitemapXml (some root)).1)
    ∧ (∀ (root e : XmlElem) (t : String),
        e ∈ descendantsList root.children → e.localName = "url" → locText e = some t →
        t ∈ (parseSitemapXml (some root)).2)
    ∧ parseSitemapXml (some mixedNsDoc) = (["http://child.xml"], ["http://page"]) := by
  refine ⟨rfl, ?_, ?_, by decide⟩
  · intro root e t hmem hname hloc
    apply List.mem_filterMap.mpr
    refine ⟨e, ?_, hloc⟩
    unfold xmlFindall
    exact List.mem_filter.mpr ⟨hmem, by simp [hname]⟩
  · intro root e t hmem hname hloc
    apply List.mem_filterMap.mpr
    refine ⟨e, ?_, hloc⟩
    unfold xmlFindall
    exact List.mem_filter.mpr ⟨hmem, by simp [hname]⟩

/-- C7 witness: in the mixed-namespace document both the sitemap entry's
stripped loc text and the url entry's loc text are extracted. -/
theorem parser_never_raises_both_extractions_witness :
    "http://child.xml" ∈ (parseSitemapXml (some mixedNsDoc)).1
    ∧ "http://page" ∈ (parseSitemapXml (some mixedNsDoc)).2 :=
  ⟨parser_never_raises_both_extractions.2.1 mixedNsDoc mixedNsSitemapElem "http://child.xml"
     (List.Mem.head _) rfl rfl,
   parser_never_raises_both_extractions.2.2.1 mixedNsDoc mixedNsUrlElem "http://page"
     (List.Mem.tail _ (List.Mem.tail _ (List.Mem.head _))) rfl rfl⟩

/-! ## Claim C9 -/

/-- C9 (amended): for every domain whose host normalization returns (does
not raise), the per-domain pipeline returns a DomainReport: an invalid
(empty) host, a failed discovery, an empty URL collection and a raised
submission error each produce a report with the corresponding error
message, a successful run produces a report with no error and one campaign
record per batch, and in a multi-domain run such domains contribute their
isolated pipeline's report pointwise.  However host = _norm_domain(domain)
is called outside both try/except blocks, so a domain on which urlparse
raises ValueError (for example one with an unmatched bracket) makes the
whole coroutine raise instead of returning a report, and
asyncio.gather(return_exceptions=False) then propagates the exception, so
no report list is produced and the sibling domains' reports are lost. -/
theorem domain_pipeline_reports :
    (∀ (bc : List Char → Option (List Char)) (env : CrawlEnv)
       (api : String → List String → Except String ApiResult)
       (dn : String) (uid : Nat) (d m : String),
        normDomain bc d = Except.error m →
        processDomain bc env api dn uid d = Except.error m)
    ∧ (∀ (bc : List Char → Option (List Char)) (env : CrawlEnv)
       (api : String → List String → Except String ApiResult)
       (dn : String) (uid : Nat) (d : String),
        normDomain bc d = Except.ok "" →
        processDomain bc env api dn uid d
          = Except.ok ⟨d, "", 0, [], some "Domain không hợp lệ"⟩)
    ∧ (∀ (bc : List Char → Option (List Char)) (env : CrawlEnv)
       (api : String → List String → Except String ApiResult)
       (dn : String) (uid : Nat) (d h : String),
        normDomain bc d = Except.ok h → h ≠ "" →
        discoverSitemapEntryPoints env h = [] →
        processDomain bc env api dn uid d
          = Except.ok ⟨d, h, 0, [], some "Không tìm thấy sitemap hợp lệ"⟩)
    ∧ (∀ (bc : List Char → Option (List Char)) (env : CrawlEnv)
       (api : String → List String → Except String ApiResult)
       (dn : String) (uid : Nat) (d h : String),
        normDomain bc d = Except.ok h → h ≠ "" →
        discoverSitemapEntryPoints env h ≠ [] →
        dedupe (collectUrlsFromSitemaps env (discoverSitemapEntryPoints env h) 6) = [] →
        processDomain bc env api dn uid d
          = Except.ok ⟨d, h, 0, [], some "Không thu thập được URL từ sitemap"⟩)
    ∧ (∀ (bc : List Char → Option (List Char)) (env : CrawlEnv)
       (api : String → List String → Except String ApiResult)
       (dn : String) (uid : Nat) (d h e : String),
        normDomain bc d = Except.ok h → h ≠ "" →
        discoverSitemapEntryPoints env h ≠ [] →
        dedupe (collectUrlsFromSitemaps env (discoverSitemapEntryPoints env h) 6) ≠ [] →
        (callInBatches api (sanitizeCampaignName (dn ++ "_" ++ toString uid ++ "_" ++ h))
            (dedupe (collectUrlsFromSitemaps env (discoverSitemapEntryPoints env h) 6)) 2000).2
          = Except.error e →
        processDomain bc env api dn uid d
          = Except.ok ⟨d, h,
              (dedupe (collectUrlsFromSitemaps env (discoverSitemapEntryPoints env h) 6)).length,
              [], some ("Lỗi gọi API 1hping: " ++ e)⟩)
    ∧ (∀ (bc : List Char → Option (List Char)) (env : CrawlEnv)
       (api : String → List String → Except String ApiResult)
       (dn : String) (uid : Nat) (d h : String) (results : List (String × ApiResult)),
        normDomain bc d = Except.ok h → h ≠ "" →
        discoverSitemapEntryPoints env h ≠ [] →
        dedupe (collectUrlsFromSitemaps env (discoverSitemapEntryPoints env h) 6) ≠ [] →
        (callInBatches api (sanitizeCampaignName (dn ++ "_" ++ toString uid ++ "_" ++ h))
            (dedupe (collectUrlsFromSitemaps env (discoverSitemapEntryPoints env h) 6)) 2000).2
          = Except.ok results →
        processDomain bc env api dn uid d
          = Except.ok ⟨d, h,
              (dedupe (collectUrlsFromSitemaps env (discoverSitemapEntryPoints env h) 6)).length,
              results.map (fun p => ⟨p.1, p.2.status, shortPreview p.2.data 800⟩), none⟩)
    ∧ (∀ (bc : List Char → Option (List Char)) (env : CrawlEnv)
       (api : String → List String → Except String ApiResult)
       (dn : String) (uid : Nat) (ds1 ds2 : List String) (d : String)
       (rs1 rs2 : List DomainReport) (r : DomainReport),
        indexDomainsReports bc env api dn uid ds1 = Except.ok rs1 →
        indexDomainsReports bc env api dn uid ds2 = Except.ok rs2 →
        processDomain bc env api dn uid d = Except.ok r →
        indexDomainsReports bc env api dn uid (ds1 ++ d :: ds2)
          = Except.ok (rs1 ++ r :: rs2))
    ∧ (∀ (bc : List Char → Option (List Char)) (env : CrawlEnv)
       (api : String → List String → Except String ApiResult)
       (dn : String) (uid : Nat) (ds1 ds2 : List String) (d : String)
       (rs1 : List DomainReport) (e : String),
        indexDomainsReports bc env api dn uid ds1 = Except.ok rs1 →
        processDomain bc env api dn uid d = Except.error e →
        indexDomainsReports bc env api dn uid (ds1 ++ d :: ds2) = Except.error e)
    ∧ indexDomainsReports bracketCheckSample envGoodDomain apiAccepts "Alice" 7
        ["bad.com", "good.com"]
        = Except.ok [⟨"bad.com", "bad.com", 0, [], some "Không tìm thấy sitemap hợp lệ"⟩,
                     ⟨"good.com", "good.com", 2,
                      [⟨"Alice_7_good.com", 200, "created"⟩], none⟩] := by
  refine ⟨?_, ?_, ?_, ?_, ?_, ?_, ?_, ?_, rfl⟩
  · intro bc env api dn uid d m hm
    unfold processDomain
    rw [hm]
  · intro bc env api dn uid d hok
    simp only [processDomain, hok]
    rw [if_pos trivial]
  · intro bc env api dn uid d h hok h1 h2
    simp only [processDomain, hok]
    rw [if_neg h1, if_pos h2]
  · intro bc env api dn uid d h hok h1 h2 h3
    simp only [processDomain, hok]
    rw [if_neg h1, if_neg h2, if_pos h3]
    rw [h3]
    rfl
  · intro bc env api dn uid d h e hok h1 h2 h3 hcall
    simp only [processDomain, hok]
    rw [if_neg h1, if_neg h2, if_neg h3, hcall]
  · intro bc env api dn uid d h results hok h1 h2 h3 hcall
    simp only [processDomain, hok]
    rw [if_neg h1, if_neg h2, if_neg h3, hcall]
  · intro bc env api dn uid ds1 ds2 d rs1 rs2 r h1 h2 hr
    induction ds1 generalizing rs1 with
    | nil =>
      have : rs1 = [] := by
        have h0 : indexDomainsReports bc env api dn uid [] = Except.ok [] := rfl
        rw [h0] at h1
        exact (Except.ok.inj h1).symm
      subst this
      rw [List.nil_append, List.nil_append]
      unfold indexDomainsReports
      rw [hr, h2]
    | cons d0 rest ih =>
      unfold indexDomainsReports at h1
      cases e0 : processDomain bc env api dn uid d0 with
      | error e => rw [e0] at h1; exact absurd h1 (by simp)
      | ok r0 =>
        rw [e0] at h1
        cases e1 : indexDomainsReports bc env api dn uid rest with
        | error e => rw [e1] at h1; exact absurd h1 (by simp)
        | ok rs0 =>
          rw [e1] at h1
          have hrs : rs1 = r0 :: rs0 := (Except.ok.inj h1).symm
          subst hrs
          rw [List.cons_append]
          unfold indexDomainsReports
          rw [e0, ih rs0 e1, List.cons_append]
  · intro bc env api dn uid ds1 ds2 d rs1 e h1 he
    induction ds1 generalizing rs1 with
    | nil =>
      rw [List.nil_append]
      unfold indexDomainsReports
      rw [he]
    | cons d0 rest ih =>
      unfold indexDomainsReports at h1
      cases e0 : processDomain bc env api dn uid d0 with
      | error e2 => rw [e0] at h1; exact absurd h1 (by simp)
      | ok r0 =>
        rw [e0] at h1
        cases e1 : indexDomainsReports bc env api dn uid rest with
        | error e2 => rw [e1] at h1; exact absurd h1 (by simp)
        | ok rs0 =>
          rw [List.cons_append]
          unfold indexDomainsReports
          rw [e0, ih rs0 e1]

/-- C9 witness: the raise conjunct on the bracketed domain a[b, the
no-sitemap conjunct on bad.com, the submission-error conjunct on good.com
under a raising API, and the abort conjunct on a run where a[b follows a
successful domain. -/
theorem domain_pipeline_reports_witness :
    processDomain bracketCheckSample envGoodDomain apiAccepts "Alice" 7 "a[b"
        = Except.error "Invalid IPv6 URL"
    ∧ processDomain bracketCheckSample envGoodDomain apiAccepts "Alice" 7 "bad.com"
        = Except.ok ⟨"bad.com", "bad.com", 0, [], some "Không tìm thấy sitemap hợp lệ"⟩
    ∧ processDomain bracketCheckSample envGoodDomain (fun _ _ => Except.error "boom")
        "Alice" 7 "good.com"
        = Except.ok ⟨"good.com", "good.com",
            (dedupe (collectUrlsFromSitemaps envGoodDomain
              (discoverSitemapEntryPoints envGoodDomain "good.com") 6)).length,
            [], some ("Lỗi gọi API 1hping: " ++ "boom")⟩
    ∧ indexDomainsReports bracketCheckSample envGoodDomain apiAccepts "Alice" 7
        (["good.com"] ++ "a[b" :: ["good.com"]) = Except.error "Invalid IPv6 URL" :=
  ⟨domain_pipeline_reports.1 bracketCheckSample envGoodDomain apiAccepts "Alice" 7
     "a[b" "Invalid IPv6 URL" rfl,
   domain_pipeline_reports.2.2.1 bracketCheckSample envGoodDomain apiAccepts "Alice" 7
     "bad.com" "bad.com" rfl (by decide) (by decide),
   domain_pipeline_reports.2.2.2.2.1 bracketCheckSample envGoodDomain
     (fun _ _ => Except.error "boom") "Alice" 7 "good.com" "good.com" "boom"
     rfl (by decide) (by decide) (by decide) rfl,
   domain_pipeline_reports.2.2.2.2.2.2.2.1 bracketCheckSample envGoodDomain apiAccepts
     "Alice" 7 ["good.com"] ["good.com"] "a[b"
     [⟨"good.com", "good.com", 2, [⟨"Alice_7_good.com", 200, "created"⟩], none⟩]
     "Invalid IPv6 URL" rfl rfl⟩

/-- C9 counterexample: the domain a[b makes urlparse raise
ValueError("Invalid IPv6 URL") out of _norm_domain, which _process_domain
calls outside both try blocks, so the coroutine raises instead of
returning a DomainReport; in the multi-domain run [a[b, good.com] the
gather propagates that exception and the report of good.com — which on its
own completes without error — is lost, refuting both parts of the claim. -/
theorem domain_pipeline_reports_cex :
    processDomain bracketCheckSample envGoodDomain apiAccepts "Alice" 7 "a[b"
        = Except.error "Invalid IPv6 URL"
    ∧ indexDomainsReports bracketCheckSample envGoodDomain apiAccepts "Alice" 7
        ["a[b", "good.com"] = Except.error "Invalid IPv6 URL"
    ∧ (∃ r, processDomain bracketCheckSample envGoodDomain apiAccepts "Alice" 7 "good.com"
          = Except.ok r ∧ r.error = none) :=
  ⟨rfl, rfl, ⟨⟨"good.com", "good.com", 2, [⟨"Alice_7_good.com", 200, "created"⟩], none⟩,
    rfl, rfl⟩⟩

/-! ## Claim C10: string lemmas -/

theorem trimEnd_cons (c : Char) (rest : List Char) :
    trimEnd (c :: rest)
      = (match trimEnd rest with
         | [] => if wsChar c then [] else [c]
         | r => c :: r) := rfl

theorem mem_trimEnd (l : List Char) (x : Char) (h : x ∈ trimEnd l) : x ∈ l := by
  induction l generalizing x with
  | nil => exact absurd (show x ∈ ([] : List Char) from h) (List.not_mem_nil x)
  | cons c rest ih =>
    rw [trimEnd_cons] at h
    rcases hr : trimEnd rest with _ | ⟨r0, rrest⟩ <;> rw [hr] at h
    · have h' : x ∈ (if wsChar c then ([] : List Char) else [c]) := h
      by_cases hw : wsChar c
      · rw [if_pos hw] at h'
        simp at h'
      · rw [if_neg hw] at h'
        simp at h'
        simp [h']
    · rcases List.mem_cons.mp h with h | h
      · simp [h]
      · refine List.mem_cons_of_mem c (ih x ?_)
        rw [hr]
        exact h

theorem trimEnd_idem (l : List Char) : trimEnd (trimEnd l) = trimEnd l := by
  induction l with
  | nil => rfl
  | cons c rest ih =>
    rw [trimEnd_cons]
    rcases hr : trimEnd rest with _ | ⟨r0, rrest⟩
    · by_cases hw : wsChar c
      · have hv : (match ([] : List Char) with
            | [] => if wsChar c then [] else [c]
            | r => c :: r) = ([] : List Char) := by
          show (if wsChar c then ([] : List Char) else [c]) = []
          rw [if_pos hw]
        rw [hv]
        rfl
      · have hv : (match ([] : List Char) with
            | [] => if wsChar c then [] else [c]
            | r => c :: r) = [c] := by
          show (if wsChar c then ([] : List Char) else [c]) = [c]
          rw [if_neg hw]
        rw [hv, trimEnd_cons]
        show (if wsChar c then ([] : List Char) else [c]) = [c]
        rw [if_neg hw]
    · rw [hr] at ih
      have hv : (match (r0 :: rrest : List Char) with
          | [] => if wsChar c then [] else [c]
          | r => c :: r) = c :: r0 :: rrest := rfl
      rw [hv, trimEnd_cons, ih]

theorem trimEnd_head (l : List Char) : trimEnd l = [] ∨ (trimEnd l).head? = l.head? := by
  cases l with
  | nil => exact Or.inl rfl
  | cons c rest =>
    rw [trimEnd_cons]
    rcases trimEnd rest with _ | ⟨r0, rrest⟩
    · by_cases hw : wsChar c
      · refine Or.inl ?_
        show (if wsChar c then ([] : List Char) else [c]) = []
        rw [if_pos hw]
      · refine Or.inr ?_
        show (if wsChar c then ([] : List Char) else [c]).head? = some c
        rw [if_neg hw]
        rfl
    · exact Or.inr rfl

theorem head_dropWhile_not (p : Char → Bool) (l : List Char) (a : Char)
    (h : (l.dropWhile p).head? = some a) : p a = false := by
  induction l with
  | nil => simp [List.dropWhile] at h
  | cons c rest ih =>
    rw [List.dropWhile_cons] at h
    split at h
    · exact ih h
    · rename_i hc
      simp at h
      rw [← h]
      exact Bool.of_not_eq_true hc

theorem dropWhile_eq_self_of_head (p : Char → Bool) (l : List Char)
    (h : ∀ a, l.head? = some a → p a = false) : l.dropWhile p = l := by
  cases l with
  | nil => rfl
  | cons c rest =>
    rw [List.dropWhile_cons, if_neg]
    rw [h c rfl]
    simp

theorem mem_pyStripChars (l : List Char) (x : Char) (h : x ∈ pyStripChars l) : x ∈ l :=
  List.dropWhile_subset wsChar (mem_trimEnd _ x h)

theorem pyStripChars_idem (l : List Char) : pyStripChars (pyStripChars l) = pyStripChars l := by
  unfold pyStripChars
  have hdw : (trimEnd (l.dropWhile wsChar)).dropWhile wsChar = trimEnd (l.dropWhile wsChar) := by
    apply dropWhile_eq_self_of_head
    intro a ha
    rcases trimEnd_head (l.dropWhile wsChar) with he | he
    · rw [he] at ha
      simp at ha
    · rw [he] at ha
      exact head_dropWhile_not wsChar l a ha
  rw [hdw, trimEnd_idem]

theorem takeWhile_eq_self_of (p : Char → Bool) (l : List Char)
    (h : ∀ a ∈ l, p a = true) : l.takeWhile p = l := by
  induction l with
  | nil => rfl
  | cons c rest ih =>
    rw [List.takeWhile_cons, if_pos (h c (List.mem_cons_self c rest))]
    rw [ih (fun a ha => h a (List.mem_cons_of_mem c ha))]

/-! ## Claim C10: lower-casing lemmas -/

theorem toNat_charOfNat (n : Nat) (h : n.isValidChar) : (Char.ofNat n).toNat = n := by
  simp [Char.ofNat, h, Char.ofNatAux, Char.toNat, UInt32.toNat]

theorem lcChar_toNat_upper (c : Char) (h : 65 ≤ c.toNat ∧ c.toNat ≤ 90) :
    (lcChar c).toNat = c.toNat + 32 := by
  unfold lcChar
  rw [if_pos h]
  exact toNat_charOfNat (c.toNat + 32) (by constructor; omega)

theorem lcChar_idem (c : Char) : lcChar (lcChar c) = lcChar c := by
  by_cases h : 65 ≤ c.toNat ∧ c.toNat ≤ 90
  · have ht := lcChar_toNat_upper c h
    unfold lcChar
    rw [if_pos h]
    rw [if_neg]
    rw [show Char.ofNat (c.toNat + 32) = lcChar c from by unfold lcChar; rw [if_pos h]]
    rw [ht]
    omega
  · unfold lcChar
    rw [if_neg h, if_neg h]

theorem ne_of_toNat_ne (a b : Char) (h : a.toNat ≠ b.toNat) : a ≠ b :=
  fun e => h (congrArg Char.toNat e)

theorem lcChar_ne_low (c d : Char) (hu : 65 ≤ c.toNat ∧ c.toNat ≤ 90)
    (hd : d.toNat < 97) : lcChar c ≠ d := by
  intro e
  have he := congrArg Char.toNat e
  rw [lcChar_toNat_upper c hu] at he
  omega

theorem urlDelim_lcChar (c : Char) (h : urlDelim c = false) : urlDelim (lcChar c) = false := by
  by_cases hu : 65 ≤ c.toNat ∧ c.toNat ≤ 90
  · simp only [urlDelim, Bool.or_eq_false_iff, decide_eq_false_iff_not]
    exact ⟨⟨lcChar_ne_low c '/' hu (by decide), lcChar_ne_low c '?' hu (by decide)⟩,
           lcChar_ne_low c '#' hu (by decide)⟩
  · unfold lcChar
    rw [if_neg hu]
    exact h

theorem ctlChar_lcChar (c : Char) (h : ctlChar c = false) : ctlChar (lcChar c) = false := by
  by_cases hu : 65 ≤ c.toNat ∧ c.toNat ≤ 90
  · simp only [ctlChar, Bool.or_eq_false_iff, decide_eq_false_iff_not]
    exact ⟨⟨lcChar_ne_low c '\t' hu (by decide), lcChar_ne_low c '\n' hu (by decide)⟩,
           lcChar_ne_low c '\r' hu (by decide)⟩
  · unfold lcChar
    rw [if_neg hu]
    exact h

/-! ## Claim C10: characterisation of the normalizer output -/

theorem mem_netlocOf (url : List Char) (d : Char) (h : d ∈ netlocOf url) :
    urlDelim d = false ∧ ctlChar d = false := by
  simp only [netlocOf] at h
  have hdel := List.mem_takeWhile_imp h
  have hmem := List.takeWhile_subset _ h
  rw [Bool.not_eq_eq_eq_not, Bool.not_true] at hdel
  refine ⟨hdel, ?_⟩
  split at hmem
  · have := List.mem_filter.mp (List.mem_of_mem_drop hmem)
    rw [Bool.not_eq_eq_eq_not, Bool.not_true] at this
    exact this.2
  · split at hmem
    · have := List.mem_filter.mp (List.mem_of_mem_drop hmem)
      rw [Bool.not_eq_eq_eq_not, Bool.not_true] at this
      exact this.2
    · exact absurd hmem (List.not_mem_nil d)

theorem normDomainChars_good (bc : List Char → Option (List Char)) (raw h : List Char)
    (hok : normDomainChars bc raw = Except.ok h) : ∀ c ∈ h, GoodOutChar c := by
  intro c hc
  simp only [normDomainChars] at hok
  split at hok
  · rw [(Except.ok.inj hok).symm] at hc
    exact absurd hc (List.not_mem_nil c)
  · split at hok
    · exact absurd hok (by simp)
    · rw [← Except.ok.inj hok] at hc
      have hcol : c ≠ ':' := by
        have := List.mem_takeWhile_imp hc
        simpa using this
      have hc1 : c ∈ lcList (pyStripChars (netlocOf
          (if hasHttpScheme (pyStripChars raw) then pyStripChars raw
           else "http://".data ++ pyStripChars raw))) := List.takeWhile_subset _ hc
      obtain ⟨d, hd, hdc⟩ := List.mem_map.mp hc1
      have hdnet := mem_pyStripChars _ d hd
      have hprops := mem_netlocOf _ d hdnet
      subst hdc
      exact ⟨lcChar_idem d, hcol, urlDelim_lcChar d hprops.1, ctlChar_lcChar d hprops.2⟩

theorem lcList_eq_self_of_good (l : List Char) (h : ∀ c ∈ l, GoodOutChar c) :
    lcList l = l := by
  unfold lcList
  conv_rhs => rw [← List.map_id l]
  exact List.map_congr_left (fun a ha => (h a ha).1)

theorem colon_not_mem_of_good (l : List Char) (h : ∀ c ∈ l, GoodOutChar c) :
    ':' ∉ lcList l := by
  intro hc
  obtain ⟨d, hd, hdc⟩ := List.mem_map.mp hc
  have hgd := h d hd
  rw [hgd.1] at hdc
  exact hgd.2.1 hdc

theorem normDomainChars_of_good (bc : List Char → Option (List Char)) (h : List Char)
    (hg : ∀ c ∈ h, GoodOutChar c) :
    normDomainChars bc h
      = if pyStripChars h = [] then Except.ok []
        else
          match bracketError bc (pyStripChars h) with
          | some m => Except.error m
          | none => Except.ok (pyStripChars h) := by
  simp only [normDomainChars]
  by_cases he : pyStripChars h = []
  · rw [if_pos he, if_pos he]
  · rw [if_neg he, if_neg he]
    have hgt : ∀ c ∈ pyStripChars h, GoodOutChar c :=
      fun c hc => hg c (mem_pyStripChars h c hc)
    have hns : hasHttpScheme (pyStripChars h) = false := by
      unfold hasHttpScheme
      rw [Bool.or_eq_false_iff]
      constructor <;>
      · rw [Bool.eq_false_iff]
        intro hp
        have hsub := (List.isPrefixOf_iff_prefix.mp hp).subset
        have : (':' : Char) ∈ lcList (pyStripChars h) := hsub (by decide)
        exact colon_not_mem_of_good _ hgt this
    rw [hns]
    show (match bracketError bc (netlocOf ("http://".data ++ pyStripChars h)) with
          | some m => Except.error m
          | none =>
            Except.ok ((lcList (pyStripChars
              (netlocOf ("http://".data ++ pyStripChars h)))).takeWhile (fun c => c ≠ ':')))
        = _
    have hfu : ("http://".data ++ pyStripChars h).filter (fun c => !ctlChar c)
        = "http://".data ++ pyStripChars h := by
      rw [List.filter_append]
      have h1 : "http://".data.filter (fun c => !ctlChar c) = "http://".data := by decide
      have h2 : (pyStripChars h).filter (fun c => !ctlChar c) = pyStripChars h :=
        List.filter_eq_self.mpr (fun a ha => by rw [(hgt a ha).2.2.2]; rfl)
      rw [h1, h2]
    have hlcu : lcList ("http://".data ++ pyStripChars h)
        = "http://".data ++ pyStripChars h := by
      unfold lcList
      rw [List.map_append]
      have h1 : "http://".data.map lcChar = "http://".data := by decide
      rw [h1]
      exact congrArg _ (lcList_eq_self_of_good _ hgt)
    have hnet : netlocOf ("http://".data ++ pyStripChars h) = pyStripChars h := by
      simp only [netlocOf]
      rw [hfu, hlcu]
      have hp8 : "https://".data.isPrefixOf ("http://".data ++ pyStripChars h) = false := by
        rw [show "https://".data = ['h', 't', 't', 'p', 's', ':', '/', '/'] from rfl,
            show "http://".data = ['h', 't', 't', 'p', ':', '/', '/'] from rfl]
        simp [List.isPrefixOf]
      have hp7 : "http://".data.isPrefixOf ("http://".data ++ pyStripChars h) = true :=
        List.isPrefixOf_iff_prefix.mpr (List.prefix_append _ _)
      rw [hp8, hp7]
      show (("http://".data ++ pyStripChars h).drop 7).takeWhile (fun c => !urlDelim c)
          = pyStripChars h
      rw [show (7 : Nat) = "http://".data.length from rfl, List.drop_left]
      exact takeWhile_eq_self_of _ _ (fun a ha => by rw [(hgt a ha).2.2.1]; rfl)
    rw [hnet]
    cases hbe : bracketError bc (pyStripChars h) with
    | some m => rfl
    | none =>
      rw [pyStripChars_idem, lcList_eq_self_of_good _ hgt]
      exact congrArg _ (takeWhile_eq_self_of _ _
        (fun a ha => decide_eq_true (hgt a ha).2.1))

/-- C10 (amended): a single application of the host normalizer is not
idempotent, in two ways: a host containing whitespace followed by a port
keeps, after one pass, a trailing space that a second pass strips; and the
normalizer can raise ValueError (urlparse's bracket checks), even on the
output of a successful pass ([::1]:80 normalizes to the single bracket
character, on which a second pass raises Invalid IPv6 URL).  When two
consecutive applications both return, the second output is a fixed point:
normalize(normalize(s)) succeeding with h' implies normalize(h') returns
h' again — the output of a successful pass contains no scheme, netloc
delimiter, colon, control character or uppercase letter, so a further pass
only strips it and re-runs the same bracket check. -/
theorem normDomain_fixed_after_two :
    ∀ (bc : List Char → Option (List Char)) (s h h' : String),
      normDomain bc s = Except.ok h → normDomain bc h = Except.ok h' →
      normDomain bc h' = Except.ok h' := by
  intro bc s h h' h1 h2
  unfold normDomain at h1
  cases e1 : normDomainChars bc s.data with
  | error m =>
    rw [e1] at h1
    exact absurd h1 (by simp)
  | ok hc =>
    rw [e1] at h1
    have hh : h = String.mk hc := (Except.ok.inj h1).symm
    subst hh
    have hg : ∀ c ∈ hc, GoodOutChar c := normDomainChars_good bc s.data hc e1
    have hK := normDomainChars_of_good bc hc hg
    unfold normDomain at h2 ⊢
    rw [show (String.mk hc).data = hc from rfl] at h2
    by_cases hemp : pyStripChars hc = []
    · rw [if_pos hemp] at hK
      rw [hK] at h2
      have hh' : h' = String.mk [] := (Except.ok.inj h2).symm
      subst hh'
      rfl
    · rw [if_neg hemp] at hK
      cases hbe : bracketError bc (pyStripChars hc) with
      | some m =>
        rw [hbe] at hK
        rw [hK] at h2
        exact absurd h2 (by simp)
      | none =>
        rw [hbe] at hK
        rw [hK] at h2
        have hh' : h' = String.mk (pyStripChars hc) := (Except.ok.inj h2).symm
        subst hh'
        have hg2 : ∀ c ∈ pyStripChars hc, GoodOutChar c :=
          fun c hcm => hg c (mem_pyStripChars hc c hcm)
        have hK2 := normDomainChars_of_good bc (pyStripChars hc) hg2
        rw [pyStripChars_idem, if_neg hemp, hbe] at hK2
        rw [show (String.mk (pyStripChars hc)).data = pyStripChars hc from rfl, hK2]

/-- C10 witness: the fixed-point theorem applied at the concrete input
a :80, whose two normalizations succeed with a-space then a; the theorem
then yields that a normalizes to itself. -/
theorem normDomain_fixed_after_two_witness :
    normDomain bracketCheckSample "a :80" = Except.ok "a "
    ∧ normDomain bracketCheckSample "a " = Except.ok "a"
    ∧ normDomain bracketCheckSample "a" = Except.ok "a" :=
  ⟨rfl, rfl, normDomain_fixed_after_two bracketCheckSample "a :80" "a " "a" rfl rfl⟩

/-- C10 counterexample: normalizing a :80 once yields the string a-space
(urlparse keeps the inner space in the netloc and the port split leaves it
trailing) while normalizing that again yields a, so a single application
is not idempotent; and normalization is not even total on its own image —
a[b raises ValueError("Invalid IPv6 URL") out of urlparse, and [::1]:80
normalizes successfully to the single bracket character, on which a second
application raises. -/
theorem normDomain_not_idempotent_cex :
    normDomain bracketCheckSample "a :80" = Except.ok "a "
    ∧ normDomain bracketCheckSample "a " = Except.ok "a"
    ∧ normDomain bracketCheckSample "a " ≠ normDomain bracketCheckSample "a :80"
    ∧ normDomain bracketCheckSample "a[b" = Except.error "Invalid IPv6 URL"
    ∧ normDomain bracketCheckSample "[::1]:80" = Except.ok "["
    ∧ normDomain bracketCheckSample "[" = Except.error "Invalid IPv6 URL" :=
  ⟨rfl, rfl,
   by
     rw [show normDomain bracketCheckSample "a " = Except.ok "a" from rfl,
         show normDomain bracketCheckSample "a :80" = Except.ok "a " from rfl]
     simp,
   rfl, rfl, rfl⟩

end OneHping
